import Mathlib

/-!
Verification development for the Plato course-outline extraction core.

The Python source is shallowly embedded: Python `float` values become `ℚ`,
`datetime.date` becomes an `Int` day count since 1970-01-01 (so that
`weekday d = (d + 3) % 7` agrees with Python's Monday-is-0 convention),
`datetime.datetime` and `datetime.timedelta` become `Int` second counts,
`str` becomes `List Char`, and `Optional[T]` becomes `Option T`.
Calls into the Python `re` library are embedded as executable matchers for
the specific regular expressions appearing in the source; alternation
groups `(?:a|b)` and optional groups `(?:a)?` are expanded into several
alternative token sequences, which preserves the semantics of `re.search`.
-/

namespace Plato

/-- Embedded Python strings: a list of characters. -/
abbrev Str := List Char

/-- Python whitespace characters, as recognised by `str.split`, `str.strip`
and the regex class backslash-s. -/
def pyIsSpace (c : Char) : Bool :=
  c = ' ' || c = '\t' || c = '\n' || c = '\r' || c = '\x0b' || c = '\x0c'

/-- Python `str.lower()` (the sources only manipulate ASCII text). -/
def lowerStr (cs : Str) : Str := cs.map Char.toLower

/-- Python `str.upper()`. -/
def upperStr (cs : Str) : Str := cs.map Char.toUpper

/-- Python `str.strip()`: remove leading and trailing whitespace. -/
def stripStr (cs : Str) : Str :=
  ((cs.dropWhile pyIsSpace).reverse.dropWhile pyIsSpace).reverse

/-- Auxiliary scanner for `splitWs`; `acc` is the current word, reversed. -/
def splitWsAux : Str → Str → List Str
  | [], acc => if acc = [] then [] else [acc.reverse]
  | c :: rest, acc =>
    if pyIsSpace c then
      if acc = [] then splitWsAux rest [] else acc.reverse :: splitWsAux rest []
    else
      splitWsAux rest (c :: acc)

/-- Python `str.split()` with no argument: split on whitespace runs,
discarding empty pieces. -/
def splitWs (cs : Str) : List Str := splitWsAux cs []

/-- Python `sep.join(words)` for a one-character separator. -/
def joinSep (sep : Char) : List Str → Str
  | [] => []
  | [w] => w
  | w :: rest => w ++ sep :: joinSep sep rest

/-- Python `needle in hay` on strings: substring containment. -/
def strContains (needle : Str) : Str → Bool
  | [] => needle.isPrefixOf ([] : Str)
  | c :: rest => needle.isPrefixOf (c :: rest) || strContains needle rest

/-- Python `hay.startswith(needle)`. -/
def startsWithStr (needle hay : Str) : Bool := needle.isPrefixOf hay

/-- Python `hay.endswith(needle)` for a one-character suffix. -/
def endsWithChar (c : Char) (hay : Str) : Bool :=
  match hay.reverse with
  | [] => false
  | d :: _ => d = c

/-- Value of an ASCII digit. -/
def digitVal (c : Char) : Nat := c.toNat - '0'.toNat

/-- Decimal value of a digit run (regex capture of a digit-plus group). -/
def digitsToNat (ds : Str) : Nat := ds.foldl (fun acc c => 10 * acc + digitVal c) 0

/-- Python `float(s)` on a regex capture of shape digits or
digits-dot-digits. -/
def parseFloat (intPart : Str) (fracPart : Str) : ℚ :=
  (digitsToNat intPart : ℚ) + (digitsToNat fracPart : ℚ) / (10 : ℚ) ^ fracPart.length

/-- Word characters for the regex boundary assertion backslash-b. -/
def isWordChar (c : Char) : Bool :=
  ('a' ≤ c && c ≤ 'z') || ('A' ≤ c && c ≤ 'Z') || ('0' ≤ c && c ≤ '9') || c = '_'

/-- Shorthand turning a Lean string literal into an embedded Python string. -/
def S (s : String) : Str := s.data

/-- A token of one of the simple policy-phrase regexes: a literal piece of
text, or backslash-s-plus (one or more whitespace characters).  Alternation
and optional groups are expanded into several token sequences before
matching, which preserves `re.search` semantics. -/
inductive Tok where
  | lit (s : Str)
  | ws
deriving DecidableEq

/-- Match a token sequence at the start of a string (with full backtracking
for the greedy whitespace-run token; any tail of the string may remain).
Fuel-based recursion: every call shrinks the token list or the string, so
fuel of tokens-plus-characters always suffices. -/
def matchToksF : Nat → List Tok → Str → Bool
  | 0, _, _ => false
  | _ + 1, [], _ => true
  | fuel + 1, Tok.lit s :: ts, cs =>
    s.isPrefixOf cs && matchToksF fuel ts (cs.drop s.length)
  | _ + 1, Tok.ws :: _, [] => false
  | fuel + 1, Tok.ws :: ts, c :: rest =>
    pyIsSpace c && (matchToksF fuel (Tok.ws :: ts) rest || matchToksF fuel ts rest)

/-- Match a token sequence at the start of `cs`. -/
def matchToks (ts : List Tok) (cs : Str) : Bool :=
  matchToksF (ts.length + cs.length + 1) ts cs

/-- `re.search` for a token sequence: try every start position. -/
def reSearch (ts : List Tok) : Str → Bool
  | [] => matchToks ts []
  | c :: rest => matchToks ts (c :: rest) || reSearch ts rest

/-- Match of the regex digits-plus, optional dot-digits-plus, percent at the
start of `cs` (the pattern searched for by `PolicyWindowFilter.filter_candidate`).
Shrinking the greedy digit runs can never make a failed match succeed for
this pattern, so no backtracking is needed. -/
def matchPercentAt (cs : Str) : Bool :=
  let ds := cs.takeWhile Char.isDigit
  let rest := cs.drop ds.length
  ds ≠ [] &&
    match rest with
    | '%' :: _ => true
    | '.' :: r2 =>
      let fs := r2.takeWhile Char.isDigit
      fs ≠ [] &&
        match r2.drop fs.length with
        | '%' :: _ => true
        | _ => false
    | _ => false

/-- Auxiliary index-tracking scan for `findPercentPos`. -/
def findPercentPosAux : Str → Nat → Option Nat
  | [], _ => none
  | c :: rest, i =>
    if matchPercentAt (c :: rest) then some i else findPercentPosAux rest (i + 1)

/-- Position of the leftmost match of the percentage regex, as
`re.search(r'\d+(?:\.\d+)?%', text).start()` computes it. -/
def findPercentPos (cs : Str) : Option Nat := findPercentPosAux cs 0

/-- Scan for a whole-word occurrence of `w` (regex backslash-b `w`
backslash-b); `prevIsWord` records whether the character just before the
current position is a word character.  Returns the remainder of the string
after the first such occurrence. -/
def findWordFrom (w : Str) : Bool → Str → Option Str
  | prevIsWord, cs =>
    match cs with
    | [] => if !prevIsWord && w = [] then some [] else none
    | c :: rest =>
      if !prevIsWord && w.isPrefixOf cs &&
          (match cs.drop w.length with
           | [] => true
           | d :: _ => !isWordChar d) then
        some (cs.drop w.length)
      else
        findWordFrom w (isWordChar c) rest

/-- Positional scan for the first verb-phrase regex of
`PolicyWindowFilter.filter_candidate`: a whole-word occurrence of `x`
followed (within the same line, since dot does not match newline) by a
whole-word occurrence of one of `ys`. -/
def verb1ScanAux (x : Str) (ys : List Str) : Bool → Str → Bool
  | _, [] => false
  | prev, c :: rest =>
    (!prev && x.isPrefixOf (c :: rest) &&
      (match (c :: rest).drop x.length with
       | [] => true
       | d :: _ => !isWordChar d) &&
      ys.any (fun y =>
        (findWordFrom y true
          (((c :: rest).drop x.length).takeWhile (fun d => d ≠ '\n'))).isSome))
    || verb1ScanAux x ys (isWordChar c) rest

/-- Alternatives of the first verb-phrase regex. -/
def verbWordsA : List Str :=
  [S "is", S "are", S "was", S "were", S "will", S "shall", S "should",
   S "must", S "may", S "can"]

/-- Second alternation group of the first verb-phrase regex. -/
def verbWordsB : List Str := [S "be", S "have", S "get", S "receive"]

/-- The regex word-boundary, alternation, any-gap, alternation,
word-boundary pattern used to reject sentence-like titles. -/
def verbPattern1 (cs : Str) : Bool :=
  verbWordsA.any (fun x => verb1ScanAux x verbWordsB false cs)

/-- Alternatives of the second verb-phrase regex. -/
def verb2Alts : List Str :=
  [S "be", S "have", S "get", S "receive", S "pass", S "obtain", S "achieve"]

/-- Positional scan for the second verb-phrase regex: word-boundary, `to`,
whitespace-run, one of the alternatives, word-boundary.  The whitespace run
is consumed greedily; every alternative starts with a letter, so
backtracking inside the run can never help. -/
def verb2ScanAux (alts : List Str) : Bool → Str → Bool
  | _, [] => false
  | prev, c :: rest =>
    (!prev && (S "to").isPrefixOf (c :: rest) &&
      (match (c :: rest).drop 2 with
       | [] => false
       | d :: after =>
         pyIsSpace d &&
           (let afterWs := after.dropWhile pyIsSpace
            alts.any (fun y =>
              y.isPrefixOf afterWs &&
                match afterWs.drop y.length with
                | [] => true
                | e :: _ => !isWordChar e))))
    || verb2ScanAux alts (isWordChar c) rest

/-- The second verb-phrase regex of `PolicyWindowFilter.filter_candidate`. -/
def verbPattern2 (cs : Str) : Bool := verb2ScanAux verb2Alts false cs

/-- `PolicyWindowFilter.POLICY_TERMS` (a Python set; iteration order is
irrelevant because only a boolean any-match is taken). -/
def POLICY_TERMS : List Str :=
  [S "passing", S "pass", S "minimum", S "eligible", S "eligibility",
   S "must", S "achieve", S "obtain", S "requirement", S "required",
   S "weighted", S "average", S "threshold", S "fail", S "reweighted",
   S "hurdle", S "grade", S "grading", S "at least", S "least", S "need",
   S "needs"]

/-- `PolicyWindowFilter.POLICY_PHRASES`, with each alternation or optional
group expanded into separate token sequences (semantics of `re.search` are
preserved by this expansion). -/
def POLICY_PHRASES : List (List Tok) :=
  [[Tok.lit (S "to"), Tok.ws, Tok.lit (S "be"), Tok.ws, Tok.lit (S "eligible")],
   [Tok.lit (S "to"), Tok.ws, Tok.lit (S "eligible")],
   [Tok.lit (S "to"), Tok.ws, Tok.lit (S "obtain")],
   [Tok.lit (S "to"), Tok.ws, Tok.lit (S "pass")],
   [Tok.lit (S "must"), Tok.ws, Tok.lit (S "achieve")],
   [Tok.lit (S "must"), Tok.ws, Tok.lit (S "obtain")],
   [Tok.lit (S "must"), Tok.ws, Tok.lit (S "have")],
   [Tok.lit (S "passing"), Tok.ws, Tok.lit (S "grade")],
   [Tok.lit (S "minimum"), Tok.ws, Tok.lit (S "grade")],
   [Tok.lit (S "minimum"), Tok.ws, Tok.lit (S "mark")],
   [Tok.lit (S "minimum"), Tok.ws, Tok.lit (S "score")],
   [Tok.lit (S "weighted"), Tok.ws, Tok.lit (S "average")],
   [Tok.lit (S "at"), Tok.ws, Tok.lit (S "least")],
   [Tok.lit (S "will"), Tok.ws, Tok.lit (S "be"), Tok.ws, Tok.lit (S "reweighted")],
   [Tok.lit (S "result"), Tok.ws, Tok.lit (S "in")],
   [Tok.lit (S "a"), Tok.ws, Tok.lit (S "grade"), Tok.ws, Tok.lit (S "of")],
   [Tok.lit (S "a"), Tok.ws, Tok.lit (S "mark"), Tok.ws, Tok.lit (S "of")]]

/-- The loop of `PolicyWindowFilter.is_policy_context` locating the word
containing the percentage position (`word_idx` stays `0` when the loop
finishes without breaking). -/
def findWordIdx (pos : Nat) : List Str → Nat → Nat → Nat
  | [], _, _ => 0
  | w :: rest, i, charPos =>
    if pos ≤ charPos + w.length then i
    else findWordIdx pos rest (i + 1) (charPos + w.length + 1)

/-- `PolicyWindowFilter.is_policy_context`. -/
def is_policy_context (window_size : Nat) (text : Str) (percent_position : Nat) :
    Bool :=
  let words := splitWs (lowerStr text)
  let word_idx := findWordIdx percent_position words 0 0
  let start_idx := word_idx - window_size
  let end_idx := min words.length (word_idx + window_size + 1)
  let window := (words.drop start_idx).take (end_idx - start_idx)
  let window_text := joinSep ' ' window
  POLICY_TERMS.any (fun t => window.contains t) ||
    POLICY_PHRASES.any (fun p => reSearch p window_text)

/-- `AssessmentCandidate` (assessment_extractor.py). -/
structure AssessmentCandidate where
  title : Str
  weight : Option ℚ
  due_date : Option Int := none
  due_rule : Option Str := none
  source_method : Str := S "unknown"
  page_num : Nat := 0
  raw_evidence : Str := []
  score : ℚ := 0
  is_bonus : Bool := false
  rejection_reason : Option Str := none
  has_assessment_noun : Bool := false
  is_in_evaluation_section : Bool := false
  is_in_table : Bool := false
  looks_like_title : Bool := true
  has_policy_words : Bool := false
deriving DecidableEq

/-- The ordered `policy_starters` list of
`PolicyWindowFilter.filter_candidate`. -/
def policyStarters : List Str :=
  [S "to be", S "to obtain", S "to pass", S "must", S "should", S "will be",
   S "students", S "you must", S "a minimum", S "the minimum", S "minimum",
   S "at least", S "achieve", S "eligible"]

/-- `PolicyWindowFilter.filter_candidate`, returning the rejection reason
it would assign (`none` when the candidate is kept; the Python function
returns `True` exactly when this is `some`, and sets
`candidate.rejection_reason` to the reason). -/
def filter_reason (c : AssessmentCandidate) : Option Str :=
  let evidence := lowerStr c.raw_evidence
  let viaWindow :=
    match findPercentPos evidence with
    | some p => is_policy_context 12 evidence p
    | none => false
  if viaWindow then some (S "Policy context (window filter)")
  else
    let title_lower := lowerStr c.title
    match policyStarters.find? (fun st => startsWithStr st title_lower) with
    | some st => some (S "Title starts with policy word: " ++ st)
    | none =>
      if verbPattern1 title_lower || verbPattern2 title_lower then
        some (S "Title is sentence-like")
      else none

/-- `PolicyWindowFilter.filter_candidate` as the pair of its boolean result
and the (possibly mutated) candidate. -/
def filter_candidate (c : AssessmentCandidate) : Bool × AssessmentCandidate :=
  match filter_reason c with
  | some r => (true, { c with rejection_reason := some r })
  | none => (false, c)

/-- Python truthiness of an optional string (`None` and the empty string
are falsy). -/
def truthyStr : Option Str → Bool
  | none => false
  | some s => !(s = [])

/-- `AssessmentCandidateGenerator.ASSESSMENT_NOUNS`. -/
def ASSESSMENT_NOUNS : List Str :=
  [S "exam", S "examination", S "midterm", S "final", S "test", S "quiz",
   S "assignment", S "homework", S "hw", S "project", S "lab", S "laboratory",
   S "participation", S "attendance", S "presentation", S "essay", S "report",
   S "paper", S "portfolio", S "tutorial", S "exercise", S "practicum",
   S "rotation", S "clinical", S "practical", S "total"]

/-- `AssessmentCandidateGenerator._has_assessment_noun`. -/
def has_assessment_noun (title : Str) : Bool :=
  ASSESSMENT_NOUNS.any (fun n => strContains n (lowerStr title))

/-- Leftmost match of the regex digit-run with optional dot-digit-run (the
capture group of the weight regex in
`AssessmentCandidateGenerator._extract_weight`); returns the integer and
fractional digit runs. -/
def findNumber : Str → Option (Str × Str)
  | [] => none
  | c :: rest =>
    if c.isDigit then
      let ds := (c :: rest).takeWhile Char.isDigit
      let r := (c :: rest).drop ds.length
      match r with
      | '.' :: r2 =>
        let fs := r2.takeWhile Char.isDigit
        if fs = [] then some (ds, []) else some (ds, fs)
      | _ => some (ds, [])
    else findNumber rest

/-- `AssessmentCandidateGenerator._extract_weight`: parse the first number
in the cell and keep it only when it lies in the interval (0, 100]. -/
def extract_weight (cell : Option Str) : Option ℚ :=
  match cell with
  | none => none
  | some s =>
    if s = [] then none
    else
      match findNumber s with
      | some (ds, fs) =>
        let value := parseFloat ds fs
        if 0 < value ∧ value ≤ 100 then some value else none
      | none => none

/-- `float(match.group(2))` for a capture of shape digits or
digits-dot-digits (the weight captures of the inline patterns, which are
parsed with no range check). -/
def parseCapturedFloat (g : Str) : ℚ :=
  let ip := g.takeWhile Char.isDigit
  let rest := g.drop ip.length
  match rest with
  | '.' :: fs => parseFloat ip fs
  | _ => parseFloat ip []

/-- A match object of the Python `re` library: the whole matched text and
the two capture groups.  The `re` library itself is external; candidate
construction from its matches is embedded below. -/
structure ReMatch where
  whole : Str
  g1 : Str
  g2 : Str
deriving DecidableEq

/-- The loop body of `AssessmentCandidateGenerator._from_inline_patterns`
for pattern 1 (`"Name: NN%"`), applied to the matches that `re.finditer`
produced on the searched text: strip the title capture, parse the weight
capture with `float` (no range check), and keep the candidate when the
title contains an assessment noun. -/
def from_inline_pattern1 (hasEvalSection : Bool) (ms : List ReMatch) :
    List AssessmentCandidate :=
  ms.filterMap (fun m =>
    let title := stripStr m.g1
    let weight := parseCapturedFloat m.g2
    if has_assessment_noun title then
      some { title := title, weight := some weight,
             source_method := S "inline", raw_evidence := m.whole,
             is_in_evaluation_section := hasEvalSection }
    else none)

/-- `AssessmentCandidateGenerator._compute_features`, applied to every
generated candidate at the end of `generate_candidates`: recompute the
noun flag from the title, and mark the candidate as in the evaluation
section when such a section exists and the candidate is table-sourced or
already carries the flag. -/
def compute_features (hasEvalSection : Bool) (c : AssessmentCandidate) :
    AssessmentCandidate :=
  { c with
    has_assessment_noun := has_assessment_noun c.title,
    is_in_evaluation_section :=
      hasEvalSection &&
        (c.source_method = S "table" || c.source_method = S "reconstructed_table" ||
          c.is_in_evaluation_section) }

/-- The weight-validity test of `AssessmentScorer.score`. -/
def hasValidWeight (c : AssessmentCandidate) : Bool :=
  match c.weight with
  | some w => decide (0 < w) && decide (w ≤ 100)
  | none => false

/-- `AssessmentScorer.score`: the sum of the fixed feature weights. -/
def scorer_score (c : AssessmentCandidate) : ℚ :=
  (if hasValidWeight c then 3/10 else 0) +
  (if c.has_assessment_noun then 1/4 else 0) +
  (if c.is_in_evaluation_section then 1/5 else 0) +
  (if c.is_in_table then 3/20 else 0) +
  (if c.looks_like_title then 1/10 else 0)

/-- `AssessmentScorer.score` also stores the score on the candidate. -/
def score_apply (c : AssessmentCandidate) : AssessmentCandidate :=
  { c with score := scorer_score c }

/-- Python `candidate.weight or 0` (`None` and `0.0` both give `0`). -/
def weightOrZero (c : AssessmentCandidate) : ℚ := c.weight.getD 0

/-- Digit-run collapsing `re.sub(r'\d+', '#', s)`; the flag records whether
the previous character was a digit (inside a run). -/
def collapseDigitsAux : Bool → Str → Str
  | _, [] => []
  | inRun, c :: rest =>
    if c.isDigit then
      (if inRun then [] else ['#']) ++ collapseDigitsAux true rest
    else c :: collapseDigitsAux false rest

/-- `re.sub(r'\d+', '#', s)`. -/
def collapseDigits (s : Str) : Str := collapseDigitsAux false s

/-- `re.sub(r'^in[\s\-]class\s+', '', s)`: remove an in-class prefix
(greedily consuming the whitespace run after it). -/
def stripInClass (s : Str) : Str :=
  match s with
  | 'i' :: 'n' :: c :: rest =>
    if (pyIsSpace c || c = '-') && (S "class").isPrefixOf rest then
      match rest.drop 5 with
      | d :: _ =>
        if pyIsSpace d then (rest.drop 5).dropWhile pyIsSpace else s
      | [] => s
    else s
  | _ => s

/-- `ConstrainedSelector._normalize_title`. -/
def normalize_title (title : Str) : Str :=
  joinSep ' ' (splitWs (collapseDigits (stripInClass (stripStr (lowerStr title)))))

/-- Stable insertion into a sorted list: `x` goes before the first element
`y` with `le x y`. -/
def insertStable (le : α → α → Bool) (x : α) : List α → List α
  | [] => [x]
  | y :: ys => if le x y then x :: y :: ys else y :: insertStable le x ys

/-- Stable sort (elements that compare equal keep their input order), the
behaviour of Python's `sorted`/`list.sort`. -/
def sortStable (le : α → α → Bool) : List α → List α
  | [] => []
  | x :: xs => insertStable le x (sortStable le xs)

/-- Lexicographic order on pairs of rationals (Python tuple comparison). -/
def pairLeQ (p q : ℚ × ℚ) : Bool :=
  decide (p.1 < q.1) || (decide (p.1 = q.1) && decide (p.2 ≤ q.2))

/-- The sort key of `ConstrainedSelector.select`. -/
def selKey (c : AssessmentCandidate) : ℚ × ℚ := (c.score, weightOrZero c)

/-- The comparator of `sorted(core, key=lambda c: (c.score, c.weight or 0),
reverse=True)`: `x` may sit before `y` when the key of `y` is at most the
key of `x`. -/
def selDescLe (x y : AssessmentCandidate) : Bool := pairLeQ (selKey y) (selKey x)

/-- The title-deduplication loop of `ConstrainedSelector.select`; `seen` is
the set of normalized titles already kept. -/
def dedupAux : List AssessmentCandidate → List Str → List AssessmentCandidate
  | [], _ => []
  | c :: rest, seen =>
    let nt := normalize_title c.title
    if seen.contains nt then dedupAux rest seen
    else c :: dedupAux rest (nt :: seen)

/-- The greedy-selection loop of `ConstrainedSelector.select`: accept a
candidate while the running total stays at most target-plus-tolerance. -/
def greedySelect (target tolerance : ℚ) :
    List AssessmentCandidate → ℚ → List AssessmentCandidate
  | [], _ => []
  | c :: rest, tot =>
    if tot + weightOrZero c ≤ target + tolerance then
      c :: greedySelect target tolerance rest (tot + weightOrZero c)
    else greedySelect target tolerance rest tot

/-- The core-candidate test of `ConstrainedSelector.select`. -/
def isCore (c : AssessmentCandidate) : Bool :=
  !c.is_bonus && !truthyStr c.rejection_reason

/-- The bonus-candidate test of `ConstrainedSelector.select`. -/
def isBonusKept (c : AssessmentCandidate) : Bool :=
  c.is_bonus && !truthyStr c.rejection_reason

/-- `ConstrainedSelector.select` (the extractor instantiates the selector
with the default target 100 and tolerance 10). -/
def select (target tolerance : ℚ) (candidates : List AssessmentCandidate) :
    List AssessmentCandidate :=
  if candidates = [] then []
  else
    let core := candidates.filter isCore
    let bonus := candidates.filter isBonusKept
    let core_total := (core.map weightOrZero).sum
    if |core_total - target| ≤ tolerance then core ++ bonus
    else if core_total < target - tolerance then core ++ bonus
    else
      let sorted_core := sortStable selDescLe core
      let deduplicated := dedupAux sorted_core []
      let selected := greedySelect target tolerance deduplicated 0
      selected ++ bonus

/-- `AssessmentTask` (models.py). -/
structure AssessmentTask where
  title : Str
  type : Str
  weight_percent : Option ℚ := none
  due_datetime : Option Int := none
  due_rule : Option Str := none
  rule_anchor : Option Str := none
  confidence : ℚ := 0
  source_evidence : Option Str := none
  needs_review : Bool := false
deriving DecidableEq

/-- `AssessmentExtractor._infer_type`. -/
def infer_type (title : Str) : Str :=
  let t := lowerStr title
  if strContains (S "final") t && strContains (S "exam") t then S "final_exam"
  else if strContains (S "midterm") t then S "midterm"
  else if strContains (S "quiz") t || strContains (S "test") t then S "quiz"
  else if strContains (S "assignment") t || strContains (S "homework") t then
    S "assignment"
  else if strContains (S "lab") t then S "lab"
  else if strContains (S "project") t then S "project"
  else if strContains (S "participation") t || strContains (S "attendance") t then
    S "participation"
  else if strContains (S "presentation") t then S "presentation"
  else if strContains (S "exam") t then S "exam"
  else S "other"

/-- `AssessmentExtractor._to_assessment_tasks`. -/
def to_assessment_tasks (cs : List AssessmentCandidate) : List AssessmentTask :=
  cs.map (fun c =>
    { title := c.title, type := infer_type c.title,
      weight_percent := c.weight, due_datetime := c.due_date,
      due_rule := c.due_rule, confidence := c.score,
      source_evidence := some c.raw_evidence })

/-- Steps 2 to 5 of `AssessmentExtractor.extract`: policy filtering (kept
candidates are unmutated), scoring, constrained selection with the default
target and tolerance, and conversion to tasks. -/
def pipeline_after_generation (candidates : List AssessmentCandidate) :
    List AssessmentTask :=
  let filtered := candidates.filter (fun c => (filter_reason c).isNone)
  let scored := filtered.map score_apply
  let selected := select 100 10 scored
  to_assessment_tasks selected

/-- `TextBlock` (document_structure.py). -/
structure TextBlock where
  text : Str
  page_num : Nat
  x0 : ℚ
  y0 : ℚ
  x1 : ℚ
  y1 : ℚ
  font_size : ℚ := 12
  is_bold : Bool := false
  font_name : Str := []
deriving DecidableEq

/-- `ReconstructedLine` (document_structure.py). -/
structure ReconstructedLine where
  blocks : List TextBlock
  page_num : Nat
  y_center : ℚ
deriving DecidableEq

/-- `sorted(self.blocks, key=lambda b: b.x0)` (ascending, stable). -/
def lineSortedBlocks (l : ReconstructedLine) : List TextBlock :=
  sortStable (fun a b => decide (a.x0 ≤ b.x0)) l.blocks

/-- `ReconstructedLine.left_text`. -/
def line_left_text (l : ReconstructedLine) : Str :=
  match lineSortedBlocks l with
  | [] => []
  | first :: others =>
    let sb := first :: others
    let midpoint := (first.x0 + (sb.getLast?.getD first).x1) / 2
    joinSep ' ' (sb.filterMap (fun b =>
      let t := stripStr b.text
      if decide (b.x0 < midpoint) && !(t = []) then some t else none))

/-- `ReconstructedLine.right_text`. -/
def line_right_text (l : ReconstructedLine) : Str :=
  match lineSortedBlocks l with
  | [] => []
  | first :: others =>
    let sb := first :: others
    let midpoint := (first.x0 + (sb.getLast?.getD first).x1) / 2
    joinSep ' ' (sb.filterMap (fun b =>
      let t := stripStr b.text
      if decide (midpoint ≤ b.x0) && !(t = []) then some t else none))

/-- `DetectedTable` (document_structure.py).  Cells are optional strings:
pdfplumber can deliver `None` cells, and the native import stores the raw
first row unchanged while stringifying the remaining rows. -/
structure DetectedTable where
  rows : List (List (Option Str))
  page_num : Nat
  headers : List Str := []
  table_type : Str := S "unknown"
  y0 : ℚ := 0
  y1 : ℚ := 0
deriving DecidableEq

/-- `str(cell) if cell else ""` (both `None` and the empty string give the
empty string). -/
def cellStr (c : Option Str) : Str := c.getD []

/-- A raw table as returned by `pdfplumber.Page.extract_tables`. -/
abbrev RawTable := List (List (Option Str))

/-- The per-page body of
`DocumentStructureExtractor._extract_pdfplumber_tables`: tables with fewer
than 2 raw rows are skipped; the first raw row is kept as-is in `rows`
ahead of the stringified remaining rows. -/
def pdfplumberTablesOnPage (page_num : Nat) (tables : List RawTable) :
    List DetectedTable :=
  tables.filterMap (fun table =>
    if table = [] ∨ table.length < 2 then none
    else
      let headers := (table.headD []).map cellStr
      let dataRows := (table.drop 1).map (fun row => row.map (fun c => some (cellStr c)))
      some { rows := [table.headD []] ++ dataRows, page_num := page_num,
             headers := headers, table_type := S "pdfplumber" })

/-- `DocumentStructureExtractor._extract_pdfplumber_tables` over the whole
document (`enumerate(pdf.pages, 1)` numbers pages from 1). -/
def extract_pdfplumber_tables (pagesTables : List (List RawTable)) :
    List DetectedTable :=
  (pagesTables.enum.map (fun pt => pdfplumberTablesOnPage (pt.1 + 1) pt.2)).flatten

/-- Match of the row-qualifying regex digit-run, optional fraction,
whitespace-run, optional percent, end-of-string at the start of `cs`.
Greedy maximal runs are equivalent to backtracking for this pattern. -/
def matchNumPercentEndAt (cs : Str) : Bool :=
  let ds := cs.takeWhile Char.isDigit
  if ds = [] then false
  else
    let r := cs.drop ds.length
    let r := match r with
      | '.' :: r2 =>
        let fs := r2.takeWhile Char.isDigit
        if fs = [] then '.' :: r2 else r2.drop fs.length
      | other => other
    let r := r.dropWhile pyIsSpace
    match r with
    | [] => true
    | ['%'] => true
    | _ => false

/-- `re.search` of the row-qualifying regex anchored at end-of-string. -/
def percentEndSearch : Str → Bool
  | [] => false
  | c :: rest => matchNumPercentEndAt (c :: rest) || percentEndSearch rest

/-- The page numbers occurring in a line list, in first-appearance order
(the key order of the Python grouping dict). -/
def pageKeys (ls : List ReconstructedLine) : List Nat :=
  ls.foldl (fun acc l => if acc.contains l.page_num then acc else acc ++ [l.page_num]) []

/-- `DocumentStructureExtractor._reconstruct_tables`: per page, collect
lines whose stripped right half ends in a bare or percent-suffixed number
and whose stripped left half is longer than 3 characters; at least 2 such
rows make a reconstructed table. -/
def reconstruct_tables (ls : List ReconstructedLine) : List DetectedTable :=
  (pageKeys ls).filterMap (fun p =>
    let page_lines := ls.filter (fun l => l.page_num = p)
    let table_rows := page_lines.filterMap (fun line =>
      let right_text := stripStr (line_right_text line)
      let left_text := stripStr (line_left_text line)
      if percentEndSearch right_text && !(left_text = []) &&
          decide (3 < left_text.length) then
        some [some left_text, some right_text]
      else none)
    if 2 ≤ table_rows.length then
      some { rows := table_rows, page_num := p,
             headers := [S "Item", S "Weight"], table_type := S "reconstructed" }
    else none)

/-- `DocumentStructureExtractor._extract_tables`: native tables first, then
reconstructed ones. -/
def extract_tables (pagesTables : List (List RawTable))
    (ls : List ReconstructedLine) : List DetectedTable :=
  extract_pdfplumber_tables pagesTables ++ reconstruct_tables ls

/-- The flattened `heading_keywords` set of
`DocumentStructureExtractor._detect_headings` (all `SECTION_KEYWORDS`
values, lowered; iteration order is irrelevant for the any-match). -/
def HEADING_KEYWORDS : List Str :=
  [S "evaluation", S "assessment", S "grading", S "grade breakdown",
   S "methods of evaluation", S "course evaluation", S "grading scheme",
   S "course information", S "course description", S "course details",
   S "course overview",
   S "schedule", S "calendar", S "important dates", S "key dates",
   S "course schedule", S "lecture schedule",
   S "learning outcomes", S "course objectives", S "objectives",
   S "requirements", S "prerequisites", S "essential requirements",
   S "policies", S "academic integrity", S "accommodations"]

/-- `re.match(r'^\d+\.?\s+[A-Z]', text)`: a digit run, an optional dot, a
whitespace run, then an uppercase letter, anchored at the start. -/
def numberedHeadingMatch (text : Str) : Bool :=
  let ds := text.takeWhile Char.isDigit
  if ds = [] then false
  else
    let r := text.drop ds.length
    let r := match r with
      | '.' :: r2 => r2
      | other => other
    match r with
    | [] => false
    | d :: _ =>
      pyIsSpace d &&
        (match r.dropWhile pyIsSpace with
         | [] => false
         | e :: _ => decide ('A' ≤ e) && decide (e ≤ 'Z'))

/-- The per-block heading test of
`DocumentStructureExtractor._detect_headings` (any of large font, bold,
section keyword, numbered pattern). -/
def isHeadingBlock (threshold : ℚ) (b : TextBlock) : Bool :=
  decide (threshold ≤ b.font_size) || b.is_bold ||
    HEADING_KEYWORDS.any (fun kw => strContains kw (stripStr (lowerStr b.text))) ||
    numberedHeadingMatch b.text

/-- The `font_sizes` list of `DocumentStructureExtractor._detect_headings`:
the font sizes of the blocks with positive font size. -/
def positiveFontSizes (blocks : List TextBlock) : List ℚ :=
  (blocks.filter (fun b => decide (0 < b.font_size))).map (fun b => b.font_size)

/-- The `avg_font_size` of `DocumentStructureExtractor._detect_headings`:
the mean of the positive font sizes. -/
def docMeanFontSize (blocks : List TextBlock) : ℚ :=
  (positiveFontSizes blocks).sum / ((positiveFontSizes blocks).length : ℚ)

/-- `DocumentStructureExtractor._detect_headings`: the large-font threshold
is 1.2 times the mean positive font size. -/
def detect_headings (blocks : List TextBlock) : List TextBlock :=
  if blocks = [] then []
  else
    if positiveFontSizes blocks = [] then []
    else
      blocks.filter (isHeadingBlock (docMeanFontSize blocks * (12/10)))

/-- `CourseTitleCandidate` (course_extractor.py). -/
structure CourseTitleCandidate where
  text : Str
  page_num : Nat
  y_position : ℚ
  font_size : ℚ
  is_bold : Bool
  near_course_code : Bool := false
  in_top_third : Bool := false
  has_allowed_chars : Bool := true
  has_negative_keywords : Bool := false
  score : ℚ := 0
deriving DecidableEq

/-- The `single_word_generic` set of
`CourseInfoExtractor._score_candidate`. -/
def SINGLE_WORD_GENERIC : List Str :=
  [S "department", S "faculty", S "engineering", S "sciences", S "science",
   S "academic", S "information", S "arts", S "humanities", S "medicine"]

/-- `CourseInfoExtractor.TITLE_WORDS`. -/
def TITLE_WORDS : List Str :=
  [S "introduction", S "methods", S "analysis", S "theory", S "principles",
   S "fundamentals", S "advanced", S "applied", S "computational",
   S "organic", S "inorganic", S "biochemistry", S "physiology",
   S "anatomy", S "calculus", S "algebra", S "statistics", S "programming",
   S "systems", S "design"]

/-- `CourseTitleCandidate.length_valid`. -/
def length_valid (c : CourseTitleCandidate) : Bool :=
  decide (8 ≤ c.text.length) && decide (c.text.length ≤ 120)

/-- `CourseInfoExtractor._score_candidate`, parameterised by the positive
first-page font sizes (an empty list covers both the no-blocks and the
no-positive-font guard of the Python code, which skip the font bonus). -/
def score_candidate (first_page_fonts : List ℚ) (c : CourseTitleCandidate) : ℚ :=
  let text_lower := stripStr (lowerStr c.text)
  let words := splitWs c.text
  (if c.has_negative_keywords then (-(8/10) : ℚ) else 0) +
  (if words.length = 1 && SINGLE_WORD_GENERIC.contains text_lower then (-1 : ℚ)
   else 0) +
  (match first_page_fonts with
   | [] => (0 : ℚ)
   | fs =>
     let avg_font := fs.sum / (fs.length : ℚ)
     if decide (avg_font * (13/10) < c.font_size) then (3/10 : ℚ)
     else if decide (avg_font * (11/10) < c.font_size) then (3/20 : ℚ)
     else 0) +
  (if c.is_bold then (3/20 : ℚ) else 0) +
  (if c.near_course_code then (1/4 : ℚ) else 0) +
  (if c.in_top_third then (3/20 : ℚ) else 0) +
  (if c.has_allowed_chars then (1/10 : ℚ) else 0) +
  (if length_valid c then (1/10 : ℚ) else 0) +
  (if decide (2 ≤ words.length) &&
      (match c.text with
       | ch :: _ => ch.isUpper
       | [] => false) then (1/10 : ℚ) else 0) +
  (if TITLE_WORDS.any (fun tw => strContains tw text_lower) then (1/4 : ℚ)
   else 0) +
  (if decide (12 < words.length) || endsWithChar '.' c.text then (-(1/5) : ℚ)
   else 0) +
  (if c.text = upperStr c.text && decide (words.length ≤ 2) then (-(3/20) : ℚ)
   else 0)

/-- `candidates.sort(key=lambda c: c.score, reverse=True)` (stable
descending sort by score). -/
def sortByScoreDesc (cs : List CourseTitleCandidate) : List CourseTitleCandidate :=
  sortStable (fun x y => decide (y.score ≤ x.score)) cs

/-- Step 3 of `CourseInfoExtractor.extract`: store each candidate's score
on it. -/
def scoredCandidates (first_page_fonts : List ℚ)
    (cs : List CourseTitleCandidate) : List CourseTitleCandidate :=
  cs.map (fun c => { c with score := score_candidate first_page_fonts c })

/-- Steps 3 and 4 of `CourseInfoExtractor.extract`: score every candidate,
sort by score descending, and return the best candidate's text unless its
score is below 0.3 (or there is no candidate). -/
def extract_title (first_page_fonts : List ℚ) (cs : List CourseTitleCandidate) :
    Option Str :=
  match sortByScoreDesc (scoredCandidates first_page_fonts cs) with
  | [] => none
  | best :: _ => if decide (best.score < 3/10) then none else some best.text

/-- `SectionOption` (models.py): times of day are second counts, dates are
day counts. -/
structure SectionOption where
  section_type : Str
  section_id : Str
  days_of_week : List Int
  start_time : Int
  end_time : Int
  location : Option Str := none
  date_range : Option (Int × Int) := none
deriving DecidableEq

/-- `CourseTerm` (models.py). -/
structure CourseTerm where
  term_name : Str
  start_date : Int
  end_date : Int
  timezone : Str := S "America/Toronto"
deriving DecidableEq

/-- Python `date.weekday()` for a day count since 1970-01-01 (which was a
Thursday, weekday 3; Monday is 0). -/
def weekday (d : Int) : Int := (d + 3) % 7

/-- `datetime.combine(date, time)` in second counts. -/
def combineDT (d : Int) (t : Int) : Int := d * 86400 + t

/-- Python `max` on an integer list (only ever applied to nonempty lists,
where the Python call is defined). -/
def maxIntList : List Int → Int
  | [] => 0
  | x :: xs => xs.foldl max x

/-- Leftmost-match scan for the regex digit-group, whitespace-run, unit
(with IGNORECASE, embedded by lowering before the comparison; the optional
trailing letter of the unit does not affect match existence, and only the
digit capture is used). -/
def findNumUnit (unit : Str) : Str → Option Nat
  | [] => none
  | c :: rest =>
    if c.isDigit then
      let ds := (c :: rest).takeWhile Char.isDigit
      let r := (c :: rest).drop ds.length
      match r with
      | d :: _ =>
        if pyIsSpace d && unit.isPrefixOf (lowerStr (r.dropWhile pyIsSpace)) then
          some (digitsToNat ds)
        else findNumUnit unit rest
      | [] => none
    else findNumUnit unit rest

/-- `RuleResolver._parse_rule_offset`: hours, then days, then weeks, as a
second count. -/
def parse_rule_offset (rule : Str) : Option Int :=
  match findNumUnit (S "hour") rule with
  | some n => some ((n : Int) * 3600)
  | none =>
    match findNumUnit (S "day") rule with
    | some n => some ((n : Int) * 86400)
    | none =>
      match findNumUnit (S "week") rule with
      | some n => some ((n : Int) * 604800)
      | none => none

/-- The first while-loop of `RuleResolver._generate_occurrences`: walk
forward one day at a time until a meeting weekday is found.  Fuel-based
recursion: the loop runs at most end-minus-start-plus-one iterations. -/
def findFirstOccAux (days : List Int) (endD : Int) : Nat → Int → Option Int
  | 0, _ => none
  | fuel + 1, cur =>
    if cur ≤ endD then
      if days.contains (weekday cur) then some cur
      else findFirstOccAux days endD fuel (cur + 1)
    else none

/-- The second while-loop of `RuleResolver._generate_occurrences`: emit an
occurrence on meeting weekdays, then advance 7 days when the current
weekday equals the maximum meeting weekday and 1 day otherwise.  Every
step advances at least one day, so the fuel used below always suffices. -/
def genOccAux (days : List Int) (startTime : Int) (endD : Int) :
    Nat → Int → List Int
  | 0, _ => []
  | fuel + 1, cur =>
    if cur ≤ endD then
      (if days.contains (weekday cur) then [combineDT cur startTime] else []) ++
        genOccAux days startTime endD fuel
          (if weekday cur = maxIntList days then cur + 7 else cur + 1)
    else []

/-- `RuleResolver._generate_occurrences`. -/
def generate_occurrences (sec : SectionOption) (term : CourseTerm) : List Int :=
  let range := sec.date_range.getD (term.start_date, term.end_date)
  let start_date := range.1
  let end_date := range.2
  match findFirstOccAux sec.days_of_week end_date
      ((end_date - start_date).toNat + 1) start_date with
  | none => []
  | some first =>
    genOccAux sec.days_of_week sec.start_time end_date
      ((end_date - first).toNat + 1) first

/-- `RuleResolver._find_anchor_section`: first section whose type contains
or is contained in the anchor (both lowered); a `tutorial` anchor falls
back to the first `lab` section. -/
def find_anchor_section (anchor : Str) (sections : List SectionOption) :
    Option SectionOption :=
  let anchor_lower := lowerStr anchor
  match sections.find? (fun s =>
      strContains anchor_lower (lowerStr s.section_type) ||
      strContains (lowerStr s.section_type) anchor_lower) with
  | some s => some s
  | none =>
    if anchor_lower = S "tutorial" then
      sections.find? (fun s => lowerStr s.section_type = S "lab")
    else none

/-- `RuleResolver.resolve_rule`. -/
def resolve_rule (a : AssessmentTask) (sections : List SectionOption)
    (term : CourseTerm) : AssessmentTask :=
  if !truthyStr a.due_rule || !truthyStr a.rule_anchor then
    { a with needs_review := true }
  else
    match find_anchor_section (a.rule_anchor.getD []) sections with
    | none => { a with needs_review := true }
    | some anchor_section =>
      match parse_rule_offset (a.due_rule.getD []) with
      | none => { a with needs_review := true }
      | some offset =>
        match generate_occurrences anchor_section term with
        | [] => { a with needs_review := true }
        | first :: _ =>
          { a with due_datetime := some (first + offset),
                   confidence := min (a.confidence + 1/5) 1,
                   needs_review := true }

/-- `RuleResolver.resolve_rules`: resolve each task that has a truthy rule
and no due timestamp yet; return every other task unchanged. -/
def resolve_rules (assessments : List AssessmentTask)
    (sections : List SectionOption) (term : CourseTerm) : List AssessmentTask :=
  assessments.map (fun a =>
    if truthyStr a.due_rule && a.due_datetime.isNone then
      resolve_rule a sections term
    else a)

/-- Python `s.replace(needle, "")` for a nonempty needle, scanning left to
right over non-overlapping occurrences.  Fuel-based recursion: every step
consumes at least one input character. -/
def removeSubF (needle : Str) : Nat → Str → Str
  | 0, s => s
  | _ + 1, [] => []
  | fuel + 1, c :: rest =>
    if needle.isPrefixOf (c :: rest) && !(needle = []) then
      removeSubF needle fuel ((c :: rest).drop needle.length)
    else c :: removeSubF needle fuel rest

/-- Python `s.replace(needle, "")` (the conditional
`if needle in s: s = s.replace(needle, "")` of the source is equivalent to
the unconditional replacement). -/
def pyReplaceDel (needle s : Str) : Str := removeSubF needle s.length s

/-- Python `str(n)` for a natural number. -/
def natToStr (n : Nat) : Str := Nat.toDigits 10 n

/-- `RuleResolver.generate_per_occurrence_assessments`: one numbered task
per occurrence of the anchor section, due at the occurrence plus the parsed
offset, always marked needs-review. -/
def generate_per_occurrence_assessments (tmpl : AssessmentTask)
    (anchor_section : SectionOption) (term : CourseTerm) : List AssessmentTask :=
  if !truthyStr tmpl.due_rule then [tmpl]
  else
    match parse_rule_offset (tmpl.due_rule.getD []) with
    | none => [tmpl]
    | some offset =>
      match generate_occurrences anchor_section term with
      | [] => [tmpl]
      | occ0 :: occRest =>
        (occ0 :: occRest).enum.map (fun io =>
          let base_title := pyReplaceDel (S " (auto)") tmpl.title
          { title := base_title ++ ' ' :: natToStr (io.1 + 1),
            type := tmpl.type,
            weight_percent := tmpl.weight_percent,
            due_datetime := some (io.2 + offset),
            due_rule := none, rule_anchor := none,
            confidence := tmpl.confidence,
            source_evidence := tmpl.source_evidence,
            needs_review := true })

/-- Membership is preserved by stable insertion. -/
theorem insertStable_mem_iff {α : Type} {le : α → α → Bool} {x a : α}
    {l : List α} : a ∈ insertStable le x l ↔ a = x ∨ a ∈ l := by
  induction l with
  | nil => simp [insertStable]
  | cons y ys ih =>
    simp only [insertStable]
    split
    · simp [List.mem_cons]
    · simp only [List.mem_cons, ih]
      tauto

/-- Membership is preserved by the stable sort. -/
theorem sortStable_mem_iff {α : Type} {le : α → α → Bool} {a : α}
    {l : List α} : a ∈ sortStable le l ↔ a ∈ l := by
  induction l with
  | nil => simp [sortStable]
  | cons y ys ih =>
    simp only [sortStable, insertStable_mem_iff, ih, List.mem_cons]

/-- Stable insertion never produces the empty list. -/
theorem insertStable_ne_nil {α : Type} {le : α → α → Bool} {x : α}
    {l : List α} : insertStable le x l ≠ [] := by
  cases l with
  | nil => simp [insertStable]
  | cons y ys =>
    simp only [insertStable]
    split <;> simp

/-- The stable sort of a list is empty only for the empty list. -/
theorem sortStable_eq_nil_iff {α : Type} {le : α → α → Bool} {l : List α} :
    sortStable le l = [] ↔ l = [] := by
  cases l with
  | nil => simp [sortStable]
  | cons y ys => simpa [sortStable] using insertStable_ne_nil

/-- Title deduplication only keeps elements of its input. -/
theorem mem_dedupAux {a : AssessmentCandidate} :
    ∀ {l : List AssessmentCandidate} {seen : List Str},
      a ∈ dedupAux l seen → a ∈ l := by
  intro l
  induction l with
  | nil => intro seen h; simp [dedupAux] at h
  | cons c rest ih =>
    intro seen h
    simp only [dedupAux] at h
    split at h
    · exact List.mem_cons_of_mem c (ih h)
    · rcases List.mem_cons.mp h with h1 | h2
      · simp [h1]
      · exact List.mem_cons_of_mem c (ih h2)

/-- Greedy selection only keeps elements of its input. -/
theorem mem_greedySelect {target tolerance : ℚ} {a : AssessmentCandidate} :
    ∀ {l : List AssessmentCandidate} {tot : ℚ},
      a ∈ greedySelect target tolerance l tot → a ∈ l := by
  intro l
  induction l with
  | nil => intro tot h; simp [greedySelect] at h
  | cons c rest ih =>
    intro tot h
    simp only [greedySelect] at h
    split at h
    · rcases List.mem_cons.mp h with h1 | h2
      · simp [h1]
      · exact List.mem_cons_of_mem c (ih h2)
    · exact List.mem_cons_of_mem c (ih h)

/-- The greedy loop keeps its running total at most target plus
tolerance, so the weights of its output sum to at most the slack that was
left when it started. -/
theorem greedySelect_sum_le (target tolerance : ℚ) :
    ∀ (l : List AssessmentCandidate) (tot : ℚ), tot ≤ target + tolerance →
      tot + ((greedySelect target tolerance l tot).map weightOrZero).sum ≤
        target + tolerance := by
  intro l
  induction l with
  | nil => intro tot h; simpa [greedySelect] using h
  | cons c rest ih =>
    intro tot h
    simp only [greedySelect]
    split
    · rename_i hacc
      have := ih (tot + weightOrZero c) hacc
      simp only [List.map_cons, List.sum_cons]
      linarith
    · exact ih tot h

/-- Stable insertion with the descending-score comparator preserves the
descending-score pairwise property. -/
theorem insertStable_score_pairwise {x : CourseTitleCandidate}
    {l : List CourseTitleCandidate}
    (hp : l.Pairwise (fun a b => b.score ≤ a.score)) :
    (insertStable (fun u v => decide (v.score ≤ u.score)) x l).Pairwise
      (fun a b => b.score ≤ a.score) := by
  induction l with
  | nil => simp [insertStable]
  | cons y ys ih =>
    simp only [insertStable]
    split
    · rename_i hc
      have hyx : y.score ≤ x.score := of_decide_eq_true hc
      refine List.Pairwise.cons ?_ hp
      intro z hz
      rcases List.mem_cons.mp hz with h1 | h2
      · simpa [h1] using hyx
      · exact le_trans (List.rel_of_pairwise_cons hp h2) hyx
    · rename_i hc
      have hxy : x.score ≤ y.score :=
        le_of_not_le (fun hcon => hc (decide_eq_true hcon))
      refine List.Pairwise.cons ?_ (ih (List.Pairwise.of_cons hp))
      intro z hz
      rcases insertStable_mem_iff.mp hz with h1 | h2
      · simpa [h1] using hxy
      · exact List.rel_of_pairwise_cons hp h2

/-- The descending sort by score is pairwise descending. -/
theorem sortByScoreDesc_pairwise (l : List CourseTitleCandidate) :
    (sortByScoreDesc l).Pairwise (fun a b => b.score ≤ a.score) := by
  induction l with
  | nil => simp [sortByScoreDesc, sortStable]
  | cons y ys ih =>
    simpa [sortByScoreDesc, sortStable] using
      insertStable_score_pairwise (by simpa [sortByScoreDesc] using ih)

/-- The head of the descending sort by score bounds every input score. -/
theorem sortByScoreDesc_head_max {l : List CourseTitleCandidate}
    {h : CourseTitleCandidate} {t : List CourseTitleCandidate}
    (heq : sortByScoreDesc l = h :: t) :
    ∀ x ∈ l, x.score ≤ h.score := by
  intro x hx
  have hx' : x ∈ h :: t := by
    rw [← heq]
    exact sortStable_mem_iff.mpr hx
  rcases List.mem_cons.mp hx' with h1 | h2
  · simp [h1]
  · have hp := sortByScoreDesc_pairwise l
    rw [heq] at hp
    exact List.rel_of_pairwise_cons hp h2

/-! ### Concrete inputs used by the claim theorems -/

/-- A lab section meeting Mondays and Wednesdays at 14:00 (day 0 and day 2;
50400 seconds is 14:00). -/
def labMonWedSection : SectionOption :=
  { section_type := S "Lab", section_id := S "001", days_of_week := [0, 2],
    start_time := 50400, end_time := 57600 }

/-- A term running 2026-01-05 (day 20458, a Monday) to 2026-01-18
(day 20471, a Sunday). -/
def janTerm : CourseTerm :=
  { term_name := S "Winter 2026", start_date := 20458, end_date := 20471 }

/-- A lab-report task carrying the rule "24 hours after lab". -/
def labReportTemplate : AssessmentTask :=
  { title := S "Lab Report", type := S "lab",
    due_rule := some (S "24 hours after lab"), rule_anchor := some (S "lab") }

/-! ### C4 -/

/-- C4: the claim says `generate_per_occurrence_assessments` yields exactly
one numbered task per date in the range whose weekday is a meeting weekday.
The code violates this for a section meeting on more than one weekday: with
meeting weekdays Monday and Wednesday over 2026-01-05..2026-01-18, the date
walk jumps a full week after each Wednesday (the maximum meeting weekday),
so Monday 2026-01-12 (day 20465) is a meeting date in range for which no
occurrence and no task is generated; only three tasks are produced for the
four meeting dates. -/
theorem rule_resolver_occurrence_bug :
    generate_occurrences labMonWedSection janTerm =
      [1767621600, 1767794400, 1768399200] ∧
    janTerm.start_date ≤ 20465 ∧ (20465 : Int) ≤ janTerm.end_date ∧
    labMonWedSection.days_of_week.contains (weekday 20465) = true ∧
    (generate_occurrences labMonWedSection janTerm).contains
      (combineDT 20465 labMonWedSection.start_time) = false ∧
    (generate_per_occurrence_assessments labReportTemplate labMonWedSection
        janTerm).map (fun t => (t.title, t.due_datetime, t.needs_review)) =
      [(S "Lab Report 1", some 1767708000, true),
       (S "Lab Report 2", some 1767880800, true),
       (S "Lab Report 3", some 1768485600, true)] := by
  refine ⟨by decide, by decide, by decide, by decide, by decide, by decide⟩

/-! ### C5 -/

/-- The policy-prose candidate of C5. -/
def policyProseCandidate : AssessmentCandidate :=
  { title := S "to be eligible for a passing grade students must average 50%",
    weight := none,
    raw_evidence := S "to be eligible for a passing grade students must average 50%" }

/-- The retained assignment candidate of C5. -/
def assignmentCandidate : AssessmentCandidate :=
  { title := S "Assignment 1", weight := some 15,
    raw_evidence := S "Assignment 1: 15%" }

/-- C5: `PolicyWindowFilter.filter_candidate` rejects the candidate whose
raw evidence is "to be eligible for a passing grade students must average
50%" (setting a rejection reason) and keeps the candidate titled
"Assignment 1" with raw evidence "Assignment 1: 15%" (returning false and
leaving the rejection reason `None`). -/
theorem policy_filter_examples :
    (filter_candidate policyProseCandidate).1 = true ∧
    (filter_candidate policyProseCandidate).2.rejection_reason =
      some (S "Policy context (window filter)") ∧
    (filter_candidate assignmentCandidate).1 = false ∧
    (filter_candidate assignmentCandidate).2.rejection_reason = none := by
  refine ⟨by decide, by decide, by decide, by decide⟩

/-! ### C9 -/

/-- C9: `RuleResolver.resolve_rules` returns a list of the same length with
tasks in the same positions (it never expands one rule-bearing task into
several), and a task with no due rule or an already-set due timestamp is
returned unchanged. -/
theorem resolve_rules_length_and_unchanged (assessments : List AssessmentTask)
    (sections : List SectionOption) (term : CourseTerm) :
    (resolve_rules assessments sections term).length = assessments.length ∧
    ∀ (i : Nat) (a : AssessmentTask), assessments[i]? = some a →
      (a.due_rule = none ∨ a.due_datetime.isSome) →
      (resolve_rules assessments sections term)[i]? = some a := by
  constructor
  · simp [resolve_rules]
  · intro i a ha hcond
    have hmap : (resolve_rules assessments sections term)[i]? =
        (assessments[i]?).map (fun a =>
          if truthyStr a.due_rule && a.due_datetime.isNone then
            resolve_rule a sections term
          else a) := by
      simp [resolve_rules, List.getElem?_map]
    have hcnd : (truthyStr a.due_rule && a.due_datetime.isNone) = false := by
      rcases hcond with h1 | h2
      · simp [h1, truthyStr]
      · rcases Option.isSome_iff_exists.mp h2 with ⟨v, hv⟩
        simp [hv]
    rw [hmap, ha]
    simp only [Option.map_some', hcnd]
    simp

/-- An already-resolved task: no rule, concrete timestamp. -/
def resolvedEssayTask : AssessmentTask :=
  { title := S "Essay", type := S "other", due_datetime := some 1767621600 }

/-- Witness for C9 at a concrete input: a one-task list whose task has no
due rule comes back unchanged at position 0, with the length preserved. -/
theorem resolve_rules_length_and_unchanged_witness :
    (resolve_rules [resolvedEssayTask] [] janTerm).length = 1 ∧
    (resolve_rules [resolvedEssayTask] [] janTerm)[0]? = some resolvedEssayTask := by
  have h := resolve_rules_length_and_unchanged [resolvedEssayTask] [] janTerm
  exact ⟨h.1, h.2 0 resolvedEssayTask rfl (Or.inl rfl)⟩

/-! ### C8 -/

/-- C8: every `DetectedTable` produced by document-structure table
extraction, whether imported from the native table detector or
reconstructed from aligned lines, has at least 2 rows. -/
theorem detected_tables_have_two_rows (pagesTables : List (List RawTable))
    (ls : List ReconstructedLine) (tbl : DetectedTable)
    (h : tbl ∈ extract_tables pagesTables ls) : 2 ≤ tbl.rows.length := by
  rcases List.mem_append.mp h with hn | hr
  · simp only [extract_pdfplumber_tables, List.mem_flatten, List.mem_map] at hn
    obtain ⟨l, ⟨pt, hpt, rfl⟩, htbl⟩ := hn
    simp only [pdfplumberTablesOnPage, List.mem_filterMap] at htbl
    obtain ⟨table, htab, hsome⟩ := htbl
    split_ifs at hsome with hc
    push_neg at hc
    obtain rfl := Option.some.inj hsome
    simp [List.length_drop]
    omega
  · simp only [reconstruct_tables, List.mem_filterMap] at hr
    obtain ⟨p, hp, hsome⟩ := hr
    split_ifs at hsome with hc
    obtain rfl := Option.some.inj hsome
    exact hc

/-- A one-page, two-row native table input. -/
def nativeTableInput : List (List RawTable) :=
  [[[[some (S "Assessment"), some (S "Weight")],
     [some (S "Midterm"), some (S "30%")]]]]

/-- The table the native import produces from `nativeTableInput`. -/
def nativeTableOutput : DetectedTable :=
  { rows := [[some (S "Assessment"), some (S "Weight")],
             [some (S "Midterm"), some (S "30%")]],
    page_num := 1,
    headers := [S "Assessment", S "Weight"],
    table_type := S "pdfplumber" }

/-- Witness for C8 at a concrete input: the imported two-row table. -/
theorem detected_tables_have_two_rows_witness :
    2 ≤ nativeTableOutput.rows.length :=
  detected_tables_have_two_rows nativeTableInput [] nativeTableOutput
    (by exact List.Mem.head _)

/-! ### C10 -/

/-- A candidate whose rejection reason is set to the empty string: Python
truthiness treats it as unrejected. -/
def emptyReasonCandidate : AssessmentCandidate :=
  { title := S "Ghost Assignment", weight := some 50,
    rejection_reason := some (S "") }

/-- Evaluation of the selector on the empty-reason candidate: it lands in
the core set and the under-extraction branch returns it unchanged. -/
theorem select_emptyReason_eval :
    select 100 10 [emptyReasonCandidate] = [emptyReasonCandidate] := by
  norm_num [select, emptyReasonCandidate, isCore, isBonusKept, truthyStr,
    weightOrZero, List.filter, S]

/-- C10 counterexample: a candidate whose `rejection_reason` is set (to the
empty string) does appear in the selector's output, because the code tests
Python truthiness rather than None-ness. -/
theorem select_keeps_empty_reason :
    emptyReasonCandidate ∈ select 100 10 [emptyReasonCandidate] ∧
    emptyReasonCandidate.rejection_reason.isSome = true := by
  refine ⟨?_, rfl⟩
  rw [select_emptyReason_eval]
  exact List.Mem.head _

/-- C10 amended: for every input list, no candidate whose rejection reason
is truthy (a non-None, nonempty string — the test the code performs)
appears in `ConstrainedSelector.select`'s output, in every branch. -/
theorem select_excludes_rejected (target tolerance : ℚ)
    (cs : List AssessmentCandidate) (c : AssessmentCandidate)
    (h : c ∈ select target tolerance cs) :
    truthyStr c.rejection_reason = false := by
  simp only [select] at h
  split_ifs at h with h0 h1 h2
  · simp at h
  · rcases List.mem_append.mp h with h' | h'
    · have hf := (List.mem_filter.mp h').2
      simp only [isCore, Bool.and_eq_true, Bool.not_eq_true'] at hf
      exact hf.2
    · have hf := (List.mem_filter.mp h').2
      simp only [isBonusKept, Bool.and_eq_true, Bool.not_eq_true'] at hf
      exact hf.2
  · rcases List.mem_append.mp h with h' | h'
    · have hf := (List.mem_filter.mp h').2
      simp only [isCore, Bool.and_eq_true, Bool.not_eq_true'] at hf
      exact hf.2
    · have hf := (List.mem_filter.mp h').2
      simp only [isBonusKept, Bool.and_eq_true, Bool.not_eq_true'] at hf
      exact hf.2
  · rcases List.mem_append.mp h with h' | h'
    · have hmem : c ∈ cs.filter isCore :=
        sortStable_mem_iff.mp (mem_dedupAux (mem_greedySelect h'))
      have hf := (List.mem_filter.mp hmem).2
      simp only [isCore, Bool.and_eq_true, Bool.not_eq_true'] at hf
      exact hf.2
    · have hf := (List.mem_filter.mp h').2
      simp only [isBonusKept, Bool.and_eq_true, Bool.not_eq_true'] at hf
      exact hf.2

/-- Witness for the amended C10 at a concrete input. -/
theorem select_excludes_rejected_witness :
    truthyStr emptyReasonCandidate.rejection_reason = false :=
  select_excludes_rejected 100 10 [emptyReasonCandidate] emptyReasonCandidate
    (by rw [select_emptyReason_eval]; exact List.Mem.head _)

/-! ### C2 -/

/-- A bonus candidate listed before a core candidate. -/
def bonusQuizCandidate : AssessmentCandidate :=
  { title := S "Bonus Quiz", weight := some 5, is_bonus := true }

/-- A core candidate carrying the whole weight. -/
def finalExamCandidate : AssessmentCandidate :=
  { title := S "Final Exam", weight := some 100 }

/-- Evaluation of the selector on the bonus-first list: the near-target
branch returns core followed by bonus, reordering the input. -/
theorem select_bonus_first_eval :
    select 100 10 [bonusQuizCandidate, finalExamCandidate] =
      [finalExamCandidate, bonusQuizCandidate] := by
  norm_num [select, bonusQuizCandidate, finalExamCandidate, isCore,
    isBonusKept, truthyStr, weightOrZero, List.filter, S]
  intro hcon
  simp at hcon

/-- C2 counterexample: with a core weight sum of 100 (within tolerance of
the target), the selector does not return its filtered input in order:
a bonus candidate listed before a core one is moved behind it. -/
theorem select_near_target_not_identity :
    |((([bonusQuizCandidate, finalExamCandidate].filter isCore).map
        weightOrZero).sum - 100)| ≤ 10 ∧
    select 100 10 [bonusQuizCandidate, finalExamCandidate] ≠
      [bonusQuizCandidate, finalExamCandidate].filter
        (fun c => !truthyStr c.rejection_reason) ∧
    select 100 10 [bonusQuizCandidate, finalExamCandidate] =
      [finalExamCandidate, bonusQuizCandidate] := by
  refine ⟨?_, ?_, select_bonus_first_eval⟩
  · norm_num [bonusQuizCandidate, finalExamCandidate, isCore, truthyStr,
      weightOrZero, List.filter, S]
  · rw [select_bonus_first_eval]
    have hfilter : [bonusQuizCandidate, finalExamCandidate].filter
        (fun c => !truthyStr c.rejection_reason) =
        [bonusQuizCandidate, finalExamCandidate] := by
      simp [bonusQuizCandidate, finalExamCandidate, truthyStr, List.filter]
    rw [hfilter]
    intro heq
    have h1 : finalExamCandidate = bonusQuizCandidate := by
      injection heq
    have h2 := congrArg AssessmentCandidate.title h1
    simp only [finalExamCandidate, bonusQuizCandidate] at h2
    exact absurd h2 (by decide)

/-- C2 amended: when the core weight sum is within tolerance of the target,
`ConstrainedSelector.select` returns the non-rejected core candidates in
input order followed by the non-rejected bonus candidates in input order (a
stable partition of its filtered input; this equals the filtered input
itself exactly when no bonus candidate precedes a core one). -/
theorem select_near_target_stable_partition (target tolerance : ℚ)
    (cs : List AssessmentCandidate)
    (h : |((cs.filter isCore).map weightOrZero).sum - target| ≤ tolerance) :
    select target tolerance cs = cs.filter isCore ++ cs.filter isBonusKept := by
  by_cases hcs : cs = []
  · subst hcs; simp [select]
  · simp only [select, if_neg hcs]
    rw [if_pos h]

/-- Witness for the amended C2 at a concrete input. -/
theorem select_near_target_stable_partition_witness :
    select 100 10 [finalExamCandidate] =
      [finalExamCandidate].filter isCore ++
        [finalExamCandidate].filter isBonusKept :=
  select_near_target_stable_partition 100 10 [finalExamCandidate]
    (by norm_num [finalExamCandidate, isCore, truthyStr, weightOrZero,
      List.filter, S])

/-! ### C3 -/

/-- A 60-percent core candidate. -/
def essayCandidate : AssessmentCandidate :=
  { title := S "Essay", weight := some 60 }

/-- A second 60-percent core candidate with a distinct normalized title. -/
def reportCandidate : AssessmentCandidate :=
  { title := S "Report", weight := some 60 }

/-- A heavy bonus candidate. -/
def bonusHeavyCandidate : AssessmentCandidate :=
  { title := S "Bonus Quiz", weight := some 60, is_bonus := true }

/-- The over-extraction input of C3: core sum 120, plus a 60-percent
bonus. -/
def overWeightInput : List AssessmentCandidate :=
  [essayCandidate, reportCandidate, bonusHeavyCandidate]

/-- Sorting the two equal-keyed core candidates is stable. -/
theorem c3_sort_eval :
    sortStable selDescLe [essayCandidate, reportCandidate] =
      [essayCandidate, reportCandidate] := by decide

/-- The two core titles normalize differently, so deduplication keeps
both. -/
theorem c3_dedup_eval :
    dedupAux [essayCandidate, reportCandidate] [] =
      [essayCandidate, reportCandidate] := by decide

/-- Evaluation of the selector on the over-extraction input: the greedy
walk keeps only the essay, then the bonus is appended unconditionally. -/
theorem c3_select_eval :
    select 100 10 overWeightInput = [essayCandidate, bonusHeavyCandidate] := by
  norm_num [select, overWeightInput, essayCandidate, reportCandidate,
    bonusHeavyCandidate, isCore, isBonusKept, truthyStr, weightOrZero,
    List.filter, c3_sort_eval, c3_dedup_eval, greedySelect, S]
  intro hcon
  simp at hcon

/-- C3 counterexample: with core sum 120 (above 110), the output weights
sum to 120 because the bonus candidate is appended unconditionally after
the greedy walk, so the output neither sums to at most 110 nor equals the
greedy walk over the deduplicated core candidates. -/
theorem select_over_target_bonus_breaks_bound :
    110 < ((overWeightInput.filter isCore).map weightOrZero).sum ∧
    ((select 100 10 overWeightInput).map weightOrZero).sum = 120 ∧
    ¬(((select 100 10 overWeightInput).map weightOrZero).sum ≤ 110) ∧
    select 100 10 overWeightInput ≠
      greedySelect 100 10
        (dedupAux (sortStable selDescLe (overWeightInput.filter isCore)) []) 0 := by
  have hgreedy : greedySelect 100 10
      (dedupAux (sortStable selDescLe (overWeightInput.filter isCore)) []) 0 =
      [essayCandidate] := by
    have hf : overWeightInput.filter isCore = [essayCandidate, reportCandidate] := by
      simp [overWeightInput, essayCandidate, reportCandidate,
        bonusHeavyCandidate, isCore, truthyStr, List.filter]
    rw [hf, c3_sort_eval, c3_dedup_eval]
    norm_num [greedySelect, weightOrZero, essayCandidate, reportCandidate]
  refine ⟨?_, ?_, ?_, ?_⟩
  · norm_num [overWeightInput, essayCandidate, reportCandidate,
      bonusHeavyCandidate, isCore, truthyStr, weightOrZero, List.filter, S]
  · rw [c3_select_eval]
    norm_num [essayCandidate, bonusHeavyCandidate, weightOrZero]
  · rw [c3_select_eval]
    norm_num [essayCandidate, bonusHeavyCandidate, weightOrZero]
  · rw [c3_select_eval, hgreedy]
    intro heq
    have := congrArg List.length heq
    simp at this

/-- C3 amended: when the core weight sum exceeds 110, the selector's output
is the greedy descending-(score, weight) walk over the title-deduplicated
core candidates followed by all non-rejected bonus candidates, and the
greedy (core) part of the output sums to at most 110; the bonus tail can
push the total beyond 110. -/
theorem select_over_target_greedy (cs : List AssessmentCandidate)
    (h : 110 < ((cs.filter isCore).map weightOrZero).sum) :
    select 100 10 cs =
      greedySelect 100 10
        (dedupAux (sortStable selDescLe (cs.filter isCore)) []) 0 ++
        cs.filter isBonusKept ∧
    ((greedySelect 100 10
        (dedupAux (sortStable selDescLe (cs.filter isCore)) []) 0).map
        weightOrZero).sum ≤ 110 := by
  constructor
  · have hcs : cs ≠ [] := by
      intro he
      subst he
      norm_num at h
    have hne1 : ¬(|((cs.filter isCore).map weightOrZero).sum - 100| ≤ 10) := by
      intro hc
      have := (abs_le.mp hc).2
      linarith
    have hne2 : ¬(((cs.filter isCore).map weightOrZero).sum < 100 - 10) := by
      linarith
    simp only [select, if_neg hcs]
    rw [if_neg hne1, if_neg hne2]
  · have hb := greedySelect_sum_le 100 10
      (dedupAux (sortStable selDescLe (cs.filter isCore)) []) 0 (by norm_num)
    linarith

/-- Witness for the amended C3 at the concrete over-extraction input. -/
theorem select_over_target_greedy_witness :
    select 100 10 overWeightInput =
      greedySelect 100 10
        (dedupAux (sortStable selDescLe (overWeightInput.filter isCore)) []) 0 ++
        overWeightInput.filter isBonusKept ∧
    ((greedySelect 100 10
        (dedupAux (sortStable selDescLe (overWeightInput.filter isCore)) []) 0).map
        weightOrZero).sum ≤ 110 :=
  select_over_target_greedy overWeightInput
    (by norm_num [overWeightInput, essayCandidate, reportCandidate,
      bonusHeavyCandidate, isCore, truthyStr, weightOrZero, List.filter, S])

/-! ### C1 -/

/-- The match that `re.finditer` of inline pattern 1 produces on the
evaluation-section text "Assignment: 105%": whole match
"Assignment: 105%", title capture "Assignment", weight capture "105". -/
def inlineMatch105 : ReMatch :=
  { whole := S "Assignment: 105%", g1 := S "Assignment", g2 := S "105" }

/-- The candidate pattern 1 builds from that match, after
`_compute_features`: weight 105, parsed with no range check. -/
def inlineCandidate105 : AssessmentCandidate :=
  { title := S "Assignment", weight := some 105, source_method := S "inline",
    raw_evidence := S "Assignment: 105%", has_assessment_noun := true,
    is_in_evaluation_section := true }

/-- The same candidate after scoring (no valid-weight bonus since 105 is
out of range; noun, evaluation-section and title-shape bonuses apply). -/
def scoredInline105 : AssessmentCandidate :=
  { inlineCandidate105 with score := 11/20 }

/-- Pattern 1 followed by feature computation turns the match on
"Assignment: 105%" into the candidate with weight 105. -/
theorem c1_generation_eval :
    (from_inline_pattern1 true [inlineMatch105]).map (compute_features true) =
      [inlineCandidate105] := by
  have h1 : has_assessment_noun (S "Assignment") = true := by decide
  have h2 : stripStr (S "Assignment") = S "Assignment" := by decide
  have h3 : parseCapturedFloat (S "105") = 105 := by
    have he : parseCapturedFloat (S "105") = parseFloat (S "105") [] := rfl
    rw [he, parseFloat]
    norm_num [show digitsToNat (S "105") = 105 from by decide,
      show digitsToNat ([] : Str) = 0 from by decide]
  simp [from_inline_pattern1, compute_features, List.filterMap, h2, h1, h3,
    inlineMatch105, inlineCandidate105]

/-- The policy filter keeps the 105-percent candidate. -/
theorem c1_filter_eval : filter_reason inlineCandidate105 = none := by decide

/-- The scorer gives the 105-percent candidate no valid-weight bonus; its
score is the sum of the noun, evaluation-section and title-shape
bonuses. -/
theorem c1_score_eval : score_apply inlineCandidate105 = scoredInline105 := by
  norm_num [score_apply, scorer_score, hasValidWeight, inlineCandidate105,
    scoredInline105]

/-- The selector's near-target branch keeps the out-of-range weight: the
core total is 105 and well within tolerance of 100. -/
theorem c1_select_eval : select 100 10 [scoredInline105] = [scoredInline105] := by
  norm_num [select, scoredInline105, inlineCandidate105, isCore, isBonusKept,
    truthyStr, weightOrZero, List.filter, S]

/-- C1 counterexample: the inline pattern parses "Assignment: 105%" into a
candidate of weight 105 with no range check, the policy filter keeps it,
the selector's near-target branch keeps it (core total 105), and the
finalized `AssessmentTask` carries `weight_percent` 105, outside (0, 100].
Only the table path (`_extract_weight`) range-checks weights. -/
theorem inline_pipeline_weight_out_of_range :
    (pipeline_after_generation
        ((from_inline_pattern1 true [inlineMatch105]).map (compute_features true))).map
      (fun t => t.weight_percent) = [some 105] ∧ ¬((105 : ℚ) ≤ 100) := by
  constructor
  · rw [c1_generation_eval]
    simp only [pipeline_after_generation]
    rw [show List.filter (fun c => (filter_reason c).isNone) [inlineCandidate105]
        = [inlineCandidate105] from by simp [List.filter, c1_filter_eval]]
    rw [show List.map score_apply [inlineCandidate105] = [scoredInline105] from by
      simp [c1_score_eval]]
    rw [c1_select_eval]
    simp [to_assessment_tasks, scoredInline105, inlineCandidate105]
  · norm_num

/-- C1 amended: every weight `_extract_weight` produces from a table cell
lies in (0, 100]; weights from the inline regex patterns are parsed without
any range check, and a task with `weight_percent` outside (0, 100] can
reach the extractor's output. -/
theorem extract_weight_in_range (cell : Option Str) (w : ℚ)
    (h : extract_weight cell = some w) : 0 < w ∧ w ≤ 100 := by
  cases cell with
  | none => simp [extract_weight] at h
  | some s =>
    by_cases h1 : s = []
    · simp [extract_weight, h1] at h
    · rcases hfn : findNumber s with _ | ⟨ds, fs⟩
      · simp [extract_weight, h1, hfn] at h
      · simp only [extract_weight, if_neg h1, hfn] at h
        split_ifs at h with h2
        obtain rfl := Option.some.inj h
        exact h2

/-- Witness for the amended C1 at a concrete table cell. -/
theorem extract_weight_in_range_witness :
    extract_weight (some (S "30%")) = some 30 ∧ 0 < (30 : ℚ) ∧ (30 : ℚ) ≤ 100 := by
  have h0 : findNumber (S "30%") = some (S "30", []) := by decide
  have h1 : parseFloat (S "30") [] = 30 := by
    rw [parseFloat]
    norm_num [show digitsToNat (S "30") = 30 from by decide,
      show digitsToNat ([] : Str) = 0 from by decide]
  have heval : extract_weight (some (S "30%")) = some 30 := by
    have hne : ¬(S "30%" = []) := by decide
    simp only [extract_weight, if_neg hne, h0]
    norm_num [h1]
  exact ⟨heval, extract_weight_in_range (some (S "30%")) 30 heval⟩

/-! ### C6 -/

/-- C6: in heading detection, a fragment whose font size is exactly 1.20
times the document's mean (positive) fragment font size is classified as a
heading, and one at 1.19 times the mean is not, provided the fragment is
not bold, matches no numbered-heading pattern, and contains no
section-vocabulary keyword (and some fragment has positive font size, so
the mean exists). -/
theorem heading_font_ratio_boundary (blocks : List TextBlock) (b : TextBlock)
    (hmem : b ∈ blocks)
    (hbold : b.is_bold = false)
    (hkw : HEADING_KEYWORDS.any
      (fun kw => strContains kw (stripStr (lowerStr b.text))) = false)
    (hpat : numberedHeadingMatch b.text = false)
    (hne : positiveFontSizes blocks ≠ []) :
    (b.font_size = docMeanFontSize blocks * (12/10) →
      b ∈ detect_headings blocks) ∧
    (b.font_size = docMeanFontSize blocks * (119/100) →
      b ∉ detect_headings blocks) := by
  have hblocks : blocks ≠ [] := by
    intro he
    subst he
    exact hne rfl
  have havg : 0 < docMeanFontSize blocks := by
    unfold docMeanFontSize
    apply div_pos
    · apply List.sum_pos
      · intro x hx
        unfold positiveFontSizes at hx
        rcases List.mem_map.mp hx with ⟨bl, hbl, rfl⟩
        exact of_decide_eq_true (List.mem_filter.mp hbl).2
      · exact hne
    · exact_mod_cast List.length_pos.mpr hne
  have hdet : detect_headings blocks =
      blocks.filter (isHeadingBlock (docMeanFontSize blocks * (12/10))) := by
    unfold detect_headings
    rw [if_neg hblocks, if_neg hne]
  constructor
  · intro hfs
    rw [hdet]
    refine List.mem_filter.mpr ⟨hmem, ?_⟩
    unfold isHeadingBlock
    have hth : decide (docMeanFontSize blocks * (12/10) ≤ b.font_size) = true := by
      rw [hfs]
      simp
    simp [hth]
  · intro hfs
    rw [hdet]
    intro hcon
    have hh := (List.mem_filter.mp hcon).2
    unfold isHeadingBlock at hh
    rw [hbold, hkw, hpat] at hh
    simp only [Bool.or_false] at hh
    have hle := of_decide_eq_true hh
    rw [hfs] at hle
    nlinarith [havg]

/-- A small-font filler block. -/
def fillerBlock8 : TextBlock :=
  { text := S "aaaa", page_num := 1, x0 := 0, y0 := 0, x1 := 0, y1 := 0,
    font_size := 8 }

/-- A block at exactly 1.20 times the mean of the sizes 8 and 12. -/
def boundaryBlock12 : TextBlock :=
  { text := S "zzzz", page_num := 1, x0 := 0, y0 := 0, x1 := 0, y1 := 0,
    font_size := 12 }

/-- A filler block making the mean 10 together with the 11.9 block. -/
def fillerBlock81 : TextBlock :=
  { text := S "aaaa", page_num := 1, x0 := 0, y0 := 0, x1 := 0, y1 := 0,
    font_size := 81/10 }

/-- A block at exactly 1.19 times the mean of the sizes 8.1 and 11.9. -/
def boundaryBlock119 : TextBlock :=
  { text := S "zzzz", page_num := 1, x0 := 0, y0 := 0, x1 := 0, y1 := 0,
    font_size := 119/10 }

/-- Witness for C6 at two concrete documents with mean font size 10: the
12-point fragment (1.20 times the mean) is a heading, the 11.9-point
fragment (1.19 times the mean) is not. -/
theorem heading_font_ratio_boundary_witness :
    boundaryBlock12 ∈ detect_headings [fillerBlock8, boundaryBlock12] ∧
    boundaryBlock119 ∉ detect_headings [fillerBlock81, boundaryBlock119] := by
  constructor
  · exact (heading_font_ratio_boundary [fillerBlock8, boundaryBlock12]
      boundaryBlock12 (by simp) rfl (by decide) (by decide)
      (by
        norm_num [positiveFontSizes, fillerBlock8, boundaryBlock12, List.filter]
        decide)).1
      (by norm_num [docMeanFontSize, positiveFontSizes, fillerBlock8,
        boundaryBlock12, List.filter])
  · exact (heading_font_ratio_boundary [fillerBlock81, boundaryBlock119]
      boundaryBlock119 (by simp) rfl (by decide) (by decide)
      (by
        norm_num [positiveFontSizes, fillerBlock81, boundaryBlock119, List.filter]
        decide)).2
      (by norm_num [docMeanFontSize, positiveFontSizes, fillerBlock81,
        boundaryBlock119, List.filter])

/-! ### C7 -/

/-- C7: `CourseInfoExtractor.extract` returns a course title exactly when
some scored title candidate reaches 0.3, and the returned title is the text
of a candidate of maximal score (the first such in input order); with no
candidate at 0.3 or an empty candidate list, the title is absent. -/
theorem extract_title_best_above_threshold (fonts : List ℚ)
    (cs : List CourseTitleCandidate) :
    ((extract_title fonts cs).isSome = true ↔
      ∃ c ∈ scoredCandidates fonts cs, (3/10 : ℚ) ≤ c.score) ∧
    (∀ t, extract_title fonts cs = some t →
      ∃ c ∈ scoredCandidates fonts cs, c.text = t ∧
        ∀ c' ∈ scoredCandidates fonts cs, c'.score ≤ c.score) := by
  rcases hsorted : sortByScoreDesc (scoredCandidates fonts cs) with _ | ⟨best, rest⟩
  · have hempty : scoredCandidates fonts cs = [] := by
      have h := hsorted
      unfold sortByScoreDesc at h
      exact sortStable_eq_nil_iff.mp h
    have hret : extract_title fonts cs = none := by
      unfold extract_title
      rw [hsorted]
    constructor
    · rw [hret]
      simp [hempty]
    · intro t ht
      rw [hret] at ht
      cases ht
  · have hbest_mem : best ∈ scoredCandidates fonts cs := by
      have h : best ∈ sortByScoreDesc (scoredCandidates fonts cs) := by
        rw [hsorted]
        exact List.Mem.head _
      unfold sortByScoreDesc at h
      exact sortStable_mem_iff.mp h
    have hmax := sortByScoreDesc_head_max hsorted
    by_cases hscore : best.score < 3/10
    · have hret : extract_title fonts cs = none := by
        unfold extract_title
        rw [hsorted]
        dsimp only
        simp [decide_eq_true hscore]
      constructor
      · rw [hret]
        simp only [Option.isSome_none, Bool.false_eq_true, false_iff]
        rintro ⟨c, hc, hge⟩
        have := hmax c hc
        linarith
      · intro t ht
        rw [hret] at ht
        cases ht
    · have hret : extract_title fonts cs = some best.text := by
        unfold extract_title
        rw [hsorted]
        dsimp only
        simp [decide_eq_false hscore]
      constructor
      · rw [hret]
        simp only [Option.isSome_some, true_iff]
        exact ⟨best, hbest_mem, le_of_not_lt hscore⟩
      · intro t ht
        rw [hret] at ht
        obtain rfl := Option.some.inj ht
        exact ⟨best, hbest_mem, rfl, hmax⟩

/-- A concrete first-page title candidate. -/
def introTheoryCandidate : CourseTitleCandidate :=
  { text := S "Introduction to Theory", page_num := 1, y_position := 0,
    font_size := 12, is_bold := false }

/-- The score of the concrete candidate with no font information: allowed
characters, valid length, capitalized multi-word shape, and a title
keyword. -/
theorem introTheoryCandidate_score :
    score_candidate [] introTheoryCandidate = 11/20 := by
  have hw : splitWs (S "Introduction to Theory") =
      [S "Introduction", S "to", S "Theory"] := by decide
  have htl : stripStr (lowerStr (S "Introduction to Theory")) =
      S "introduction to theory" := by decide
  have hTW : TITLE_WORDS.any
      (fun tw => strContains tw (S "introduction to theory")) = true := by decide
  have hSG : SINGLE_WORD_GENERIC.contains (S "introduction to theory") = false := by
    decide
  have hup : decide (S "Introduction to Theory" =
      upperStr (S "Introduction to Theory")) = false := by decide
  have hend : endsWithChar '.' (S "Introduction to Theory") = false := by decide
  have hlen1 : decide (8 ≤ (S "Introduction to Theory").length) = true := by decide
  have hlen2 : decide ((S "Introduction to Theory").length ≤ 120) = true := by decide
  have hI : 'I'.isUpper = true := by decide
  have h1 : (splitWs introTheoryCandidate.text).length = 3 := by decide
  have h2 : (match introTheoryCandidate.text with
      | ch :: _ => ch.isUpper
      | [] => false) = true := by decide
  have h3 : ∃ x ∈ TITLE_WORDS,
      strContains x (stripStr (lowerStr introTheoryCandidate.text)) = true := by
    decide
  have h4 : ¬(stripStr (lowerStr introTheoryCandidate.text) ∈ SINGLE_WORD_GENERIC) := by
    decide
  have h5 : endsWithChar '.' introTheoryCandidate.text = false := by decide
  have h6 : ¬(introTheoryCandidate.text = upperStr introTheoryCandidate.text) := by
    decide
  have p1 : introTheoryCandidate.has_negative_keywords = false := rfl
  have p2 : introTheoryCandidate.is_bold = false := rfl
  have p3 : introTheoryCandidate.near_course_code = false := rfl
  have p4 : introTheoryCandidate.in_top_third = false := rfl
  have p5 : introTheoryCandidate.has_allowed_chars = true := rfl
  have p6 : introTheoryCandidate.text.length = 22 := by decide
  have q7 : (if introTheoryCandidate.has_allowed_chars then (1:ℚ)/10 else 0) = 1/10 := by
    norm_num [p5]
  have q8 : (if length_valid introTheoryCandidate then (1:ℚ)/10 else 0) = 1/10 := by
    norm_num [length_valid, p6]
  have q9 : (if decide (2 ≤ (splitWs introTheoryCandidate.text).length) &&
      (match introTheoryCandidate.text with
       | ch :: _ => ch.isUpper
       | [] => false) then (1:ℚ)/10 else 0) = 1/10 := by
    norm_num [h1, h2]
  have q10 : (if TITLE_WORDS.any
      (fun tw => strContains tw (stripStr (lowerStr introTheoryCandidate.text)))
      then (1:ℚ)/4 else 0) = 1/4 := by
    norm_num [h3]
  unfold score_candidate
  norm_num [h1, h2, h3, h4, h5, h6, p1, p2, p3, p4, p5, p6, length_valid]

/-- Witness for C7 at a concrete input: the candidate scores 0.55, so a
title is returned. -/
theorem extract_title_best_above_threshold_witness :
    (extract_title [] [introTheoryCandidate]).isSome = true := by
  have hsc : scoredCandidates [] [introTheoryCandidate] =
      [{ introTheoryCandidate with score := 11/20 }] := by
    simp [scoredCandidates, introTheoryCandidate_score]
  exact (extract_title_best_above_threshold [] [introTheoryCandidate]).1.mpr
    ⟨{ introTheoryCandidate with score := 11/20 },
     by rw [hsc]; exact List.Mem.head _,
     by norm_num⟩

end Plato